import Mathlib

/-!
# Verification of `example_slope.py` (CoastSat.slope)

Shallow embedding of the beach-slope estimation driver script.  The script
manipulates a shoreline dataset stored as a dictionary of parallel per-epoch
lists (`output`), a per-transect dictionary of cross-distance series
(`cross_distance`), tide series, and prints one slope per transect.

Dates (timezone-aware datetimes in the script) are embedded as integer
timestamps, which preserves their linear order and subtraction.  Numeric
values are embedded as rationals; a cross-distance entry that is NaN in the
script is embedded as `none` (`Option ℚ`), since the only NaN operation the
script performs is `np.isnan` masking.
-/

namespace CoastSatSlope

/-- A cell of one of the parallel per-epoch lists of the `output` dictionary:
a date (timestamp), a satellite name, a numeric value (e.g. geoaccuracy), or
a shoreline coordinate array. -/
inductive Cell where
  | date (t : ℤ)
  | str (s : String)
  | num (q : ℚ)
  | coords (c : List (ℚ × ℚ))
deriving DecidableEq, Repr

/-- The `output` dictionary: a finite map from field name to the per-epoch
list of that field (embedded as an association list, first match wins, as in
a Python dict). -/
abbrev Output : Type := List (String × List Cell)

/-- `output[key]` lookup (first matching entry; absent key gives `[]`). -/
def getKey (o : Output) (k : String) : List Cell :=
  match o.find? (fun kv => kv.1 == k) with
  | some kv => kv.2
  | none => []

/-- `[xs[i] for i in np.where(keep)[0]]` / `xs[keep]`: retain the entries of
`xs` at the positions where the boolean mask `keep` is `true`. -/
def applyMask {α : Type} : List Bool → List α → List α
  | [], _ => []
  | _, [] => []
  | b :: bs, x :: xs => if b then x :: applyMask bs xs else applyMask bs xs

/-- `for key in output.keys(): output[key] = [output[key][_] for _ in np.where(keep)[0]]`:
apply one keep-mask to the per-epoch list of every field of the dictionary. -/
def maskAll (keep : List Bool) (o : Output) : Output :=
  o.map (fun kv => (kv.1, applyMask keep kv.2))

/-- Lines 38–41: the S2-removal block.  If `'S2' in output['satname']`, build
the mask `idx_S2 = [_ == 'S2' for _ in output['satname']]` and rebuild every
field as `[output[key][_] for _ in np.where(~idx_S2)[0]]`; otherwise the
block is skipped and `output` is untouched. -/
def removeS2 (o : Output) : Output :=
  let satname := getKey o "satname"
  if Cell.str "S2" ∈ satname then
    maskAll (satname.map (fun c => !(c == Cell.str "S2"))) o
  else
    o

/-- Line 98: the per-date clipping predicate
`np.logical_and(_ > date_range[0], _ < date_range[1])`. -/
def dateKeep (lo hi : ℤ) : Cell → Bool
  | Cell.date t => decide (lo < t) && decide (t < hi)
  | _ => false

/-- Lines 98–99: `dates_sat = [output['dates'][_] for _ in np.where(idx_dates)[0]]`
with `idx_dates` the list of per-date clipping booleans. -/
def clipDates (lo hi : ℤ) (dates : List Cell) : List Cell :=
  applyMask (dates.map (dateKeep lo hi)) dates

/-- Lines 100–101: `cross_distance[key] = cross_distance[key][idx_dates]` for
every transect key, with the same mask computed from `output['dates']`. -/
def clipCross (lo hi : ℤ) (dates : List Cell)
    (cd : List (String × List (Option ℚ))) : List (String × List (Option ℚ)) :=
  cd.map (fun kv => (kv.1, applyMask (dates.map (dateKeep lo hi)) kv.2))

/-! ## Basic lemmas about `applyMask` -/

theorem applyMask_nil {α : Type} (bs : List Bool) :
    applyMask bs ([] : List α) = [] := by
  cases bs <;> rfl

theorem applyMask_map_eq_filter {α : Type} (p : α → Bool) (xs : List α) :
    applyMask (xs.map p) xs = xs.filter p := by
  induction xs with
  | nil => rfl
  | cons x xs ih =>
      simp only [List.map_cons, applyMask, List.filter_cons]
      by_cases h : p x = true
      · simp [h, ih]
      · simp [h, ih]


theorem applyMask_length_le {α : Type} (bs : List Bool) (xs : List α) :
    (applyMask bs xs).length ≤ xs.length := by
  induction bs generalizing xs with
  | nil => simp [applyMask]
  | cons b bs ih =>
      cases xs with
      | nil => simp [applyMask]
      | cons x xs =>
          by_cases h : b = true
          · simp only [applyMask, h, if_true, List.length_cons]
            exact Nat.succ_le_succ (ih xs)
          · simp only [applyMask, h, if_false, List.length_cons]
            exact Nat.le_succ_of_le (ih xs)

/-- Masking two lists of equal length with the same mask yields results of
equal length. -/
theorem applyMask_length_eq {α β : Type} (bs : List Bool) (xs : List α)
    (ys : List β) (h : xs.length = ys.length) :
    (applyMask bs xs).length = (applyMask bs ys).length := by
  induction bs generalizing xs ys with
  | nil => simp [applyMask]
  | cons b bs ih =>
      cases xs with
      | nil =>
          cases ys with
          | nil => rfl
          | cons y ys => simp at h
      | cons x xs =>
          cases ys with
          | nil => simp at h
          | cons y ys =>
              simp only [List.length_cons, Nat.succ.injEq] at h
              by_cases hb : b = true
              · simp only [applyMask, hb, if_true, List.length_cons]
                exact congrArg Nat.succ (ih xs ys h)
              · simp only [applyMask, hb, if_false]
                exact ih xs ys h

/-- An all-`true` mask of matching length is the identity. -/
theorem applyMask_replicate_true {α : Type} (xs : List α) :
    applyMask (List.replicate xs.length true) xs = xs := by
  induction xs with
  | nil => rfl
  | cons x xs ih => simp [applyMask, List.replicate, ih]

theorem mem_applyMask {α : Type} (bs : List Bool) (xs : List α) (a : α)
    (h : a ∈ applyMask bs xs) : a ∈ xs := by
  induction bs generalizing xs with
  | nil => simp [applyMask] at h
  | cons b bs ih =>
      cases xs with
      | nil => simp [applyMask] at h
      | cons x xs =>
          by_cases hb : b = true
          · simp only [applyMask, hb, if_true, List.mem_cons] at h
            rcases h with h | h
            · exact h ▸ List.mem_cons_self x xs
            · exact List.mem_cons_of_mem x (ih xs h)
          · simp only [applyMask, hb, if_false] at h
            exact List.mem_cons_of_mem x (ih xs h)

/-! ## Alignment of the parallel per-epoch lists -/

/-- All per-epoch lists of the dictionary have the same length `n`. -/
abbrev aligned (o : Output) (n : ℕ) : Prop :=
  ∀ kv ∈ o, (kv.2 : List Cell).length = n

/-- Looking a field up after masking every field is masking the looked-up
field. -/
theorem getKey_maskAll (keep : List Bool) (o : Output) (k : String) :
    getKey (maskAll keep o) k = applyMask keep (getKey o k) := by
  induction o with
  | nil => simp [getKey, maskAll, applyMask_nil]
  | cons kv o ih =>
      by_cases h : (kv.1 == k) = true
      · simp [getKey, maskAll, List.find?, h]
      · simpa [getKey, maskAll, List.find?, h] using ih

/-- A field lookup on an aligned dictionary yields `[]` (absent key) or a
list of the common length. -/
theorem getKey_length_of_aligned (o : Output) (n : ℕ) (k : String)
    (hal : aligned o n) : getKey o k = [] ∨ (getKey o k).length = n := by
  cases hfind : o.find? (fun kv => kv.1 == k) with
  | none => exact Or.inl (by simp [getKey, hfind])
  | some kv =>
      refine Or.inr ?_
      have hmem : kv ∈ o := List.mem_of_find?_eq_some hfind
      simp [getKey, hfind, hal kv hmem]

/-- Masking every field of an aligned dictionary with one mask keeps it
aligned (at the masked length). -/
theorem aligned_maskAll (keep : List Bool) (o : Output) (n : ℕ)
    (hal : aligned o n) :
    aligned (maskAll keep o) ((applyMask keep (List.replicate n (Cell.num 0))).length) := by
  intro kv hkv
  rcases List.mem_map.mp hkv with ⟨kv', hmem, rfl⟩
  exact applyMask_length_eq keep kv'.2 (List.replicate n (Cell.num 0))
    (by simp [hal kv' hmem])

/-- When no satellite name equals `'S2'`, the S2-removal block is a no-op
(the `if` guard at line 38 is false). -/
theorem removeS2_skip (o : Output) (h : Cell.str "S2" ∉ getKey o "satname") :
    removeS2 o = o := by
  unfold removeS2
  simp [h]

/-! ## Claim C1: date-range clipping -/

/-- **C1 (counterexample).** The claim states a date is retained iff it is
on-or-after the lower bound and strictly before the upper bound.  At the
concrete input where the single date equals the lower bound (`d = 0`, bounds
`0` and `10`), the claimed equivalence is false: the right-hand side holds
(`0 ≤ 0 ∧ 0 < 10`) but the code's mask `_ > date_range[0] and _ < date_range[1]`
discards the date, so it is not retained. -/
theorem clipDates_lower_bound_counterexample :
    ¬ ((Cell.date 0 ∈ clipDates 0 10 [Cell.date 0]) ↔
        ((0 : ℤ) ≤ 0 ∧ (0 : ℤ) < 10)) := by
  decide

/-- **C1 (amended).** Date-range clipping retains exactly the epochs whose
date lies strictly between the two configured bounds: the retained list is
the filter of the date list by the predicate `lo < d ∧ d < hi`, and a date
cell is retained iff it occurs in the input and is strictly after the lower
bound and strictly before the upper bound. -/
theorem clipDates_retains_iff (lo hi : ℤ) (dates : List Cell) :
    clipDates lo hi dates = dates.filter (dateKeep lo hi) ∧
    ∀ d : ℤ, (Cell.date d ∈ clipDates lo hi dates ↔
        Cell.date d ∈ dates ∧ lo < d ∧ d < hi) := by
  constructor
  · exact applyMask_map_eq_filter (dateKeep lo hi) dates
  · intro d
    unfold clipDates
    rw [applyMask_map_eq_filter (dateKeep lo hi) dates, List.mem_filter]
    simp [dateKeep, and_assoc]

/-! ## Claim C9: the S2 filter is skipped when no S2 epoch exists -/

/-- **C9.** If no epoch's satellite identifier equals `'S2'`, the guard
`if 'S2' in output['satname']` is false, the rebuilding of every field as a
masked list is skipped altogether, and the shoreline dataset is returned
entirely unchanged. -/
theorem removeS2_eq_self_of_no_S2 (o : Output)
    (h : Cell.str "S2" ∉ getKey o "satname") : removeS2 o = o :=
  removeS2_skip o h

/-- Witness for C9 at the concrete dataset whose satellites are `L5, L8`. -/
theorem removeS2_eq_self_witness :
    (Cell.str "S2" ∉
        getKey ([("satname", [Cell.str "L5", Cell.str "L8"]),
           ("dates", [Cell.date 3, Cell.date 7])] : Output) "satname") ∧
    removeS2 [("satname", [Cell.str "L5", Cell.str "L8"]),
              ("dates", [Cell.date 3, Cell.date 7])] =
      [("satname", [Cell.str "L5", Cell.str "L8"]),
       ("dates", [Cell.date 3, Cell.date 7])] :=
  ⟨by decide, removeS2_eq_self_of_no_S2 _ (by decide)⟩

/-! ## Claim C3: index alignment is preserved by the filtering steps -/

/-- **C3.** Index alignment is an invariant of the removal steps.  The
satellite-source filter applies one shared mask to the per-epoch list of
every field of the shoreline dataset (so entry `i` of one field keeps
corresponding to entry `i` of every other), and its result is aligned.  The
date-range clipping applies the mask derived from the date list both to the
date list and to every per-transect cross-distance series, and afterwards
every clipped series has the same length as the clipped date list. -/
theorem filtering_preserves_alignment (o : Output) (n : ℕ) (lo hi : ℤ)
    (cd : List (String × List (Option ℚ)))
    (hal : aligned o n)
    (hcd : ∀ kv ∈ cd, (kv.2 : List (Option ℚ)).length = (getKey o "dates").length) :
    (∃ keep : List Bool, removeS2 o = maskAll keep o ∧ ∃ m, aligned (removeS2 o) m) ∧
    (∀ kv ∈ clipCross lo hi (getKey o "dates") cd,
        (kv.2 : List (Option ℚ)).length = (clipDates lo hi (getKey o "dates")).length) := by
  constructor
  · by_cases hS2 : Cell.str "S2" ∈ getKey o "satname"
    · have hrw : removeS2 o =
          maskAll ((getKey o "satname").map (fun c => !(c == Cell.str "S2"))) o := by
        unfold removeS2
        simp [hS2]
      exact ⟨(getKey o "satname").map (fun c => !(c == Cell.str "S2")), hrw,
        _, hrw ▸ aligned_maskAll _ o n hal⟩
    · have heq : ∀ kv ∈ o,
          ((fun kv => (kv.1, applyMask (List.replicate n true) kv.2)) kv) = kv := by
        intro kv hkv
        have hlen := hal kv hkv
        simp only []
        rw [← hlen, applyMask_replicate_true]
      refine ⟨List.replicate n true, ?_, n, ?_⟩
      · rw [removeS2_skip o hS2]
        unfold maskAll
        exact ((List.map_congr_left heq).trans (List.map_id o)).symm
      · rw [removeS2_skip o hS2]
        exact hal
  · intro kv hkv
    unfold clipCross at hkv
    rcases List.mem_map.mp hkv with ⟨kv', hmem, rfl⟩
    unfold clipDates
    exact applyMask_length_eq _ kv'.2 (getKey o "dates") (hcd kv' hmem)

/-- A concrete aligned two-epoch dataset with one `S2` epoch, for witnesses. -/
def oA : Output :=
  [("dates", [Cell.date 1, Cell.date 5]),
   ("satname", [Cell.str "S2", Cell.str "L8"]),
   ("geoaccuracy", [Cell.num 4, Cell.num 9])]

/-- A concrete cross-distance dictionary matching `oA`, for witnesses. -/
def cdA : List (String × List (Option ℚ)) := [("t1", [some 2, none])]

/-- Witness for C3 at the concrete dataset `oA` and cross-distances `cdA`. -/
theorem filtering_preserves_alignment_witness :
    (aligned oA 2 ∧
      ∀ kv ∈ cdA, (kv.2 : List (Option ℚ)).length = (getKey oA "dates").length) ∧
    ((∃ keep : List Bool, removeS2 oA = maskAll keep oA ∧
        ∃ m, aligned (removeS2 oA) m) ∧
      (∀ kv ∈ clipCross 0 10 (getKey oA "dates") cdA,
        (kv.2 : List (Option ℚ)).length = (clipDates 0 10 (getKey oA "dates")).length)) :=
  ⟨⟨by decide, by decide⟩,
    filtering_preserves_alignment oA 2 0 10 cdA (by decide) (by decide)⟩

/-! ## Claim C2: the three removals of the filter stage

`SDS_slope.remove_duplicates` and `SDS_slope.remove_inaccurate_georef`
(lines 44 and 46 call them) are library code that is not under src/, so they
are modelled from the spec below. -/

/-- The per-epoch lists of the `output` dictionary have one entry per date
cell; the mask marking first occurrences of dates, seen-so-far accumulated
in `seen`. -/
def dupKeepMaskAux (seen : List Cell) : List Cell → List Bool
  | [] => []
  | d :: ds => (!(decide (d ∈ seen))) :: dupKeepMaskAux (d :: seen) ds

/-- Modelled from the spec: `SDS_slope.remove_duplicates` (called at line 44)
is not under src/.  Per the spec the filter stage "removes duplicate
observations": an observation whose date already occurred at an earlier
index is a duplicate; the keep-mask retaining only first occurrences is
applied to every field of the dataset. -/
def remove_duplicates (o : Output) : Output :=
  maskAll (dupKeepMaskAux [] (getKey o "dates")) o

/-- An epoch passes the georeferencing check when its geoaccuracy value does
not exceed the threshold. -/
def geoKeep (thresh : ℚ) : Cell → Bool
  | Cell.num q => !(decide (thresh < q))
  | _ => true

/-- Modelled from the spec: `SDS_slope.remove_inaccurate_georef` (called at
line 46 with threshold 10) is not under src/.  Per the spec it "drops
observations whose georeferencing error exceeds a threshold": the keep-mask
dropping every epoch whose geoaccuracy exceeds the threshold is applied to
every field of the dataset. -/
def remove_inaccurate_georef (o : Output) (thresh : ℚ) : Output :=
  maskAll ((getKey o "geoaccuracy").map (geoKeep thresh)) o

/-- Lines 38–46: the whole filter stage, in the order the script performs
it: S2 removal, then duplicate removal, then georeferencing filter with
threshold 10. -/
def filterStage (o : Output) : Output :=
  remove_inaccurate_georef (remove_duplicates (removeS2 o)) 10

/-- An epoch record: its date, satellite name and geoaccuracy cells. -/
abbrev Epoch := Cell × Cell × Cell

/-- The epoch records of a dataset: the index-wise zip of the date,
satellite-name and geoaccuracy fields. -/
def epochs (o : Output) : List Epoch :=
  (getKey o "dates").zip ((getKey o "satname").zip (getKey o "geoaccuracy"))

/-- Claim-side description of the first removal: drop every epoch whose
satellite identifier equals `'S2'`. -/
def specS2Removal (es : List Epoch) : List Epoch :=
  es.filter (fun e => !(e.2.1 == Cell.str "S2"))

/-- Claim-side description of the second removal, seen-so-far accumulated:
drop every epoch whose date occurred at an earlier index. -/
def specDedupAux (seen : List Cell) : List Epoch → List Epoch
  | [] => []
  | e :: es =>
      if e.1 ∈ seen then specDedupAux (e.1 :: seen) es
      else e :: specDedupAux (e.1 :: seen) es

/-- Claim-side description of the second removal: remove duplicate
observations. -/
def specDedup (es : List Epoch) : List Epoch := specDedupAux [] es

/-- Claim-side description of the third removal: drop every epoch whose
georeferencing error exceeds the threshold. -/
def specGeoRemoval (thresh : ℚ) (es : List Epoch) : List Epoch :=
  es.filter (fun e => geoKeep thresh e.2.2)

/-- Masking an index-wise combination is the combination of the
maskings. -/
theorem applyMask_zipWith {α β γ : Type} (f : α → β → γ) (bs : List Bool)
    (xs : List α) (ys : List β) :
    applyMask bs (List.zipWith f xs ys) =
      List.zipWith f (applyMask bs xs) (applyMask bs ys) := by
  induction bs generalizing xs ys with
  | nil => simp [applyMask]
  | cons b bs ih =>
      cases xs with
      | nil => simp [applyMask]
      | cons x xs =>
          cases ys with
          | nil => simp [applyMask, applyMask_nil]
          | cons y ys =>
              simp only [List.zipWith_cons_cons, applyMask]
              by_cases hb : b = true
              · simp only [hb, if_true, List.zipWith_cons_cons]
                rw [ih]
              · simp only [hb, Bool.false_eq_true, if_false]
                rw [ih]

/-- Masking a zip is the zip of the maskings. -/
theorem applyMask_zip {α β : Type} (bs : List Bool) (xs : List α) (ys : List β) :
    applyMask bs (xs.zip ys) = (applyMask bs xs).zip (applyMask bs ys) :=
  applyMask_zipWith Prod.mk bs xs ys

/-- The epoch records after masking every field are the masked epoch
records. -/
theorem epochs_maskAll (keep : List Bool) (o : Output) :
    epochs (maskAll keep o) = applyMask keep (epochs o) := by
  unfold epochs
  rw [getKey_maskAll, getKey_maskAll, getKey_maskAll, applyMask_zip, applyMask_zip]

/-- Masking by the first-occurrence mask of the dates is the seen-so-far
duplicate removal on epoch records. -/
theorem applyMask_dupKeepMask (es : List Epoch) (seen : List Cell) :
    applyMask (dupKeepMaskAux seen (es.map Prod.fst)) es = specDedupAux seen es := by
  induction es generalizing seen with
  | nil => rfl
  | cons e es ih =>
      simp only [List.map_cons, dupKeepMaskAux, specDedupAux]
      by_cases h : e.1 ∈ seen
      · simp [applyMask, h, ih]
      · simp [applyMask, h, ih]

/-- Duplicate removal only ever retains records of its input. -/
theorem mem_of_mem_specDedupAux (es : List Epoch) (seen : List Cell) (e : Epoch)
    (h : e ∈ specDedupAux seen es) : e ∈ es := by
  induction es generalizing seen with
  | nil => simp [specDedupAux] at h
  | cons a es ih =>
      simp only [specDedupAux] at h
      by_cases ha : a.1 ∈ seen
      · rw [if_pos ha] at h
        exact List.mem_cons_of_mem a (ih _ h)
      · rw [if_neg ha] at h
        rcases List.mem_cons.mp h with h | h
        · exact h ▸ List.mem_cons_self a es
        · exact List.mem_cons_of_mem a (ih _ h)

/-- The dates of the epoch records are the date field (when the three fields
have equal length). -/
theorem epochs_map_fst (o : Output)
    (hsd : (getKey o "satname").length = (getKey o "dates").length)
    (hgd : (getKey o "geoaccuracy").length = (getKey o "dates").length) :
    (epochs o).map Prod.fst = getKey o "dates" := by
  unfold epochs
  apply List.map_fst_zip
  rw [List.length_zip, hsd, hgd]
  simp

/-- A predicate of the satellite component of the epoch records is the same
predicate mapped over the satellite field. -/
theorem epochs_map_sat (o : Output) (p : Cell → Bool)
    (hsd : (getKey o "satname").length = (getKey o "dates").length)
    (hgd : (getKey o "geoaccuracy").length = (getKey o "dates").length) :
    (epochs o).map (fun e => p e.2.1) = (getKey o "satname").map p := by
  unfold epochs
  have h1 : ((getKey o "dates").zip
        ((getKey o "satname").zip (getKey o "geoaccuracy"))).map Prod.snd =
      (getKey o "satname").zip (getKey o "geoaccuracy") :=
    List.map_snd_zip _ _ (by rw [List.length_zip, hsd, hgd]; simp)
  have h2 : ((getKey o "satname").zip (getKey o "geoaccuracy")).map Prod.fst =
      getKey o "satname" :=
    List.map_fst_zip _ _ (by rw [hsd, hgd])
  conv_rhs => rw [← h2, ← h1, List.map_map, List.map_map]
  rfl

/-- A predicate of the geoaccuracy component of the epoch records is the
same predicate mapped over the geoaccuracy field. -/
theorem epochs_map_geo (o : Output) (p : Cell → Bool)
    (hsd : (getKey o "satname").length = (getKey o "dates").length)
    (hgd : (getKey o "geoaccuracy").length = (getKey o "dates").length) :
    (epochs o).map (fun e => p e.2.2) = (getKey o "geoaccuracy").map p := by
  unfold epochs
  have h1 : ((getKey o "dates").zip
        ((getKey o "satname").zip (getKey o "geoaccuracy"))).map Prod.snd =
      (getKey o "satname").zip (getKey o "geoaccuracy") :=
    List.map_snd_zip _ _ (by rw [List.length_zip, hsd, hgd]; simp)
  have h2 : ((getKey o "satname").zip (getKey o "geoaccuracy")).map Prod.snd =
      getKey o "geoaccuracy" :=
    List.map_snd_zip _ _ (by rw [hsd, hgd])
  conv_rhs => rw [← h2, ← h1, List.map_map, List.map_map]
  rfl

/-- Masking every field preserves the equal-length property of the three
epoch fields. -/
theorem fields_len_maskAll (keep : List Bool) (o : Output)
    (hsd : (getKey o "satname").length = (getKey o "dates").length)
    (hgd : (getKey o "geoaccuracy").length = (getKey o "dates").length) :
    (getKey (maskAll keep o) "satname").length =
        (getKey (maskAll keep o) "dates").length ∧
      (getKey (maskAll keep o) "geoaccuracy").length =
        (getKey (maskAll keep o) "dates").length := by
  simp only [getKey_maskAll]
  exact ⟨applyMask_length_eq keep _ _ hsd, applyMask_length_eq keep _ _ hgd⟩

/-- The S2-removal block preserves the equal-length property of the three
epoch fields. -/
theorem fields_len_removeS2 (o : Output)
    (hsd : (getKey o "satname").length = (getKey o "dates").length)
    (hgd : (getKey o "geoaccuracy").length = (getKey o "dates").length) :
    (getKey (removeS2 o) "satname").length =
        (getKey (removeS2 o) "dates").length ∧
      (getKey (removeS2 o) "geoaccuracy").length =
        (getKey (removeS2 o) "dates").length := by
  unfold removeS2
  by_cases hS2 : Cell.str "S2" ∈ getKey o "satname"
  · simp only [hS2, if_true]
    exact fields_len_maskAll _ o hsd hgd
  · simp only [hS2, if_false]
    exact ⟨hsd, hgd⟩

/-- On the epoch records, the S2-removal block is the filter dropping the
epochs whose satellite identifier equals `'S2'`. -/
theorem epochs_removeS2 (o : Output)
    (hsd : (getKey o "satname").length = (getKey o "dates").length)
    (hgd : (getKey o "geoaccuracy").length = (getKey o "dates").length) :
    epochs (removeS2 o) = specS2Removal (epochs o) := by
  unfold removeS2 specS2Removal
  by_cases hS2 : Cell.str "S2" ∈ getKey o "satname"
  · simp only [hS2, if_true]
    rw [epochs_maskAll, ← epochs_map_sat o (fun c => !(c == Cell.str "S2")) hsd hgd]
    exact applyMask_map_eq_filter _ _
  · simp only [hS2, if_false]
    symm
    apply List.filter_eq_self.mpr
    intro e he
    rcases e with ⟨d, s, g⟩
    have hzip := (List.of_mem_zip he).2
    have hsat : s ∈ getKey o "satname" := (List.of_mem_zip hzip).1
    have hne : s ≠ Cell.str "S2" := fun h => hS2 (h ▸ hsat)
    simp [hne]

/-- On the epoch records, duplicate removal is the seen-so-far duplicate
drop keyed on the date component. -/
theorem epochs_remove_duplicates (o : Output)
    (hsd : (getKey o "satname").length = (getKey o "dates").length)
    (hgd : (getKey o "geoaccuracy").length = (getKey o "dates").length) :
    epochs (remove_duplicates o) = specDedup (epochs o) := by
  unfold remove_duplicates specDedup
  rw [epochs_maskAll, ← epochs_map_fst o hsd hgd]
  exact applyMask_dupKeepMask (epochs o) []

/-- On the epoch records, the georeferencing filter is the filter dropping
the epochs whose geoaccuracy exceeds the threshold. -/
theorem epochs_remove_georef (o : Output) (t : ℚ)
    (hsd : (getKey o "satname").length = (getKey o "dates").length)
    (hgd : (getKey o "geoaccuracy").length = (getKey o "dates").length) :
    epochs (remove_inaccurate_georef o t) = specGeoRemoval t (epochs o) := by
  unfold remove_inaccurate_georef specGeoRemoval
  rw [epochs_maskAll, ← epochs_map_geo o (geoKeep t) hsd hgd]
  exact applyMask_map_eq_filter _ _

/-- **C2.** The filter stage performs exactly the three removals, in the
order of the script: first every epoch whose satellite identifier equals
`'S2'` is dropped, then duplicate observations are dropped, then every
observation whose georeferencing error exceeds the threshold 10 is dropped;
and every epoch record retained by the stage comes from the input, does not
have satellite `'S2'`, and has georeferencing error within the threshold. -/
theorem filterStage_three_removals (o : Output)
    (hsd : (getKey o "satname").length = (getKey o "dates").length)
    (hgd : (getKey o "geoaccuracy").length = (getKey o "dates").length) :
    epochs (filterStage o) =
      specGeoRemoval 10 (specDedup (specS2Removal (epochs o))) ∧
    ∀ e ∈ epochs (filterStage o),
      e ∈ epochs o ∧ (e.2.1 == Cell.str "S2") = false ∧ geoKeep 10 e.2.2 = true := by
  obtain ⟨hsd1, hgd1⟩ := fields_len_removeS2 o hsd hgd
  have h1 := epochs_removeS2 o hsd hgd
  have h2 := epochs_remove_duplicates (removeS2 o) hsd1 hgd1
  obtain ⟨hsd2, hgd2⟩ :=
    fields_len_maskAll (dupKeepMaskAux [] (getKey (removeS2 o) "dates"))
      (removeS2 o) hsd1 hgd1
  have h3 := epochs_remove_georef (remove_duplicates (removeS2 o)) 10 hsd2 hgd2
  have heq : epochs (filterStage o) =
      specGeoRemoval 10 (specDedup (specS2Removal (epochs o))) := by
    unfold filterStage
    rw [h3, h2, h1]
  refine ⟨heq, ?_⟩
  intro e he
  rw [heq] at he
  unfold specGeoRemoval at he
  have hgeo := List.mem_filter.mp he
  have hded : e ∈ specS2Removal (epochs o) :=
    mem_of_mem_specDedupAux _ [] e hgeo.1
  unfold specS2Removal at hded
  have hs2 := List.mem_filter.mp hded
  refine ⟨hs2.1, ?_, hgeo.2⟩
  simpa using hs2.2

/-- Witness for C2 at the concrete dataset `oA` (one `S2` epoch, one epoch
within the threshold). -/
theorem filterStage_three_removals_witness :
    ((getKey oA "satname").length = (getKey oA "dates").length ∧
      (getKey oA "geoaccuracy").length = (getKey oA "dates").length) ∧
    (epochs (filterStage oA) =
        specGeoRemoval 10 (specDedup (specS2Removal (epochs oA))) ∧
      ∀ e ∈ epochs (filterStage oA),
        e ∈ epochs oA ∧ (e.2.1 == Cell.str "S2") = false ∧
          geoKeep 10 e.2.2 = true) :=
  ⟨⟨by decide, by decide⟩, filterStage_three_removals oA (by decide) (by decide)⟩

/-! ## The slope-estimation stage (lines 81–95 and 153–164)

`SDS_slope.range_slopes`, `SDS_slope.tide_correct` and
`SDS_slope.integrate_power_spectrum` are library code that is not under
src/, so they are modelled from the spec below. -/

/-- Line 84: `'slope_min': 0.035`. -/
def slope_min : ℚ := 0.035

/-- Line 85: `'slope_max': 0.2`. -/
def slope_max : ℚ := 0.2

/-- Line 86: `'delta_slope': 0.005`. -/
def delta_slope : ℚ := 0.005

/-- Modelled from the spec: `SDS_slope.range_slopes` (called at line 95) is
not under src/.  Per the spec the candidate slopes form "a configured
candidate range" generated from `slope_min` to `slope_max` with step
`delta_slope`. -/
def range_slopes (smin smax delta : ℚ) : List ℚ :=
  (List.range (((smax - smin) / delta).floor.toNat + 1)).map
    (fun k : ℕ => smin + (k : ℚ) * delta)

/-- Line 95: `beach_slopes = SDS_slope.range_slopes(0.035, 0.2, 0.005)`. -/
def beach_slopes : List ℚ := range_slopes slope_min slope_max delta_slope

/-- Lines 156–159: `idx_nan = np.isnan(cross_distance[key])`, then `dates`,
`tide` and `composite` are all masked by `~idx_nan` (a NaN is embedded as
`none`). -/
def removeNans (dates_sat : List Cell) (tide_sat : List ℚ)
    (cross : List (Option ℚ)) : List Cell × List ℚ × List (Option ℚ) :=
  let keep := cross.map (fun v => !v.isNone)
  (applyMask keep dates_sat, applyMask keep tide_sat, applyMask keep cross)

/-- Modelled from the spec: `SDS_slope.tide_correct` (called at line 161) is
not under src/.  Per the spec it "tidally corrects the cross-shore series
across a candidate range of slopes"; per the glossary the correction is the
tide-driven horizontal displacement given an assumed beach slope, so each
candidate slope yields the series shifted by `tide / slope`. -/
def tide_correct (composite : List (Option ℚ)) (tide : List ℚ)
    (slopes : List ℚ) : List (List ℚ) :=
  slopes.map (fun s => (composite.zip tide).map (fun p => p.1.getD 0 + p.2 / s))

/-- Modelled from the spec: `SDS_slope.integrate_power_spectrum` (called at
line 163) is not under src/.  Per the spec it "builds a power spectrum for
each candidate, and selects/integrates around the tidal frequency band to
produce a best-fit slope estimate"; the spectral functional itself is owned
by the library and out of spec, so it is abstracted as the parameter
`power`, and the best-fit slope is the candidate whose tidally-corrected
series maximises it. -/
def integrate_power_spectrum (power : List ℚ → ℚ) (slopes : List ℚ)
    (tsall : List (List ℚ)) : ℚ :=
  match (slopes.zip tsall).argmax (fun p => power p.2) with
  | some p => p.1
  | none => 0

/-- Lines 153–164: the slope-estimation loop.  For each transect key, in
dictionary order: NaN removal, tidal correction over the candidate slopes,
spectrum integration, and one printed line `(key, slope)`.  The returned
list is both the `slope_est` mapping and the printed lines, one per
iteration. -/
def slopeStage (power : List ℚ → ℚ) (dates_sat : List Cell)
    (tide_sat : List ℚ) (cd : List (String × List (Option ℚ))) :
    List (String × ℚ) :=
  cd.map (fun kv =>
    let r := removeNans dates_sat tide_sat kv.2
    (kv.1, integrate_power_spectrum power beach_slopes
      (tide_correct r.2.2 r.2.1 beach_slopes)))

/-! ## Claim C4: per-transect NaN removal -/

/-- **C4.** For every transect, the entries at which the cross-distance
value is NaN are removed simultaneously from the dates, tide and
cross-distance series: the three resulting series have equal length and the
resulting cross-distance series contains no NaN. -/
theorem removeNans_equal_lengths_no_nan (dates_sat : List Cell)
    (tide_sat : List ℚ) (cross : List (Option ℚ)) (n : ℕ)
    (hd : dates_sat.length = n) (ht : tide_sat.length = n)
    (hc : cross.length = n) :
    ((removeNans dates_sat tide_sat cross).1).length =
        ((removeNans dates_sat tide_sat cross).2.2).length ∧
      ((removeNans dates_sat tide_sat cross).2.1).length =
        ((removeNans dates_sat tide_sat cross).2.2).length ∧
      ∀ v ∈ (removeNans dates_sat tide_sat cross).2.2, v.isSome := by
  unfold removeNans
  refine ⟨applyMask_length_eq _ _ _ (hd.trans hc.symm),
    applyMask_length_eq _ _ _ (ht.trans hc.symm), ?_⟩
  intro v hv
  have hv' : v ∈ applyMask (cross.map (fun v => !v.isNone)) cross := hv
  rw [applyMask_map_eq_filter] at hv'
  have hkeep := (List.mem_filter.mp hv').2
  cases v with
  | none => simp at hkeep
  | some a => rfl

/-- Witness for C4 at a three-entry series with one NaN. -/
theorem removeNans_equal_lengths_no_nan_witness :
    ([Cell.date 1, Cell.date 2, Cell.date 3].length = 3 ∧
      ([(1 : ℚ), 2, 3] : List ℚ).length = 3 ∧
      ([some 7, none, some 5] : List (Option ℚ)).length = 3) ∧
    (((removeNans [Cell.date 1, Cell.date 2, Cell.date 3] [(1 : ℚ), 2, 3]
          [some 7, none, some 5]).1).length =
        ((removeNans [Cell.date 1, Cell.date 2, Cell.date 3] [(1 : ℚ), 2, 3]
          [some 7, none, some 5]).2.2).length ∧
      ((removeNans [Cell.date 1, Cell.date 2, Cell.date 3] [(1 : ℚ), 2, 3]
          [some 7, none, some 5]).2.1).length =
        ((removeNans [Cell.date 1, Cell.date 2, Cell.date 3] [(1 : ℚ), 2, 3]
          [some 7, none, some 5]).2.2).length ∧
      ∀ v ∈ (removeNans [Cell.date 1, Cell.date 2, Cell.date 3] [(1 : ℚ), 2, 3]
          [some 7, none, some 5]).2.2, v.isSome) :=
  ⟨⟨rfl, rfl, rfl⟩,
    removeNans_equal_lengths_no_nan _ _ _ 3 rfl rfl rfl⟩

/-! ## Claim C6: the slope estimate lies in the candidate range -/

/-- The spectrum integration returns one of the candidate slopes whenever
there are candidates and corrected series. -/
theorem integrate_power_spectrum_mem (power : List ℚ → ℚ) (slopes : List ℚ)
    (tsall : List (List ℚ)) (hs : slopes ≠ []) (ht : tsall ≠ []) :
    integrate_power_spectrum power slopes tsall ∈ slopes := by
  unfold integrate_power_spectrum
  cases hm : (slopes.zip tsall).argmax (fun p => power p.2) with
  | none =>
      exfalso
      rw [List.argmax_eq_none] at hm
      rcases List.zip_eq_nil_iff.mp hm with h | h
      · exact hs h
      · exact ht h
  | some p =>
      have hmem : p ∈ (slopes.zip tsall).argmax (fun p => power p.2) := by
        simp [hm]
      exact (List.of_mem_zip (List.argmax_mem hmem)).1

/-- The candidate list is never empty (there is at least the candidate
`smin`). -/
theorem range_slopes_ne_nil (smin smax delta : ℚ) :
    range_slopes smin smax delta ≠ [] := by
  apply List.ne_nil_of_length_pos
  unfold range_slopes
  rw [List.length_map, List.length_range]
  exact Nat.succ_pos _

/-- Every generated candidate slope lies between the bounds it was generated
from, for a positive step and ordered bounds. -/
theorem range_slopes_mem_bounds (smin smax delta : ℚ) (hdelta : 0 < delta)
    (hle : smin ≤ smax) :
    ∀ x ∈ range_slopes smin smax delta, smin ≤ x ∧ x ≤ smax := by
  intro x hx
  unfold range_slopes at hx
  rcases List.mem_map.mp hx with ⟨k, hk, rfl⟩
  have hk' : k < ((smax - smin) / delta).floor.toNat + 1 := List.mem_range.mp hk
  constructor
  · have hkd : (0 : ℚ) ≤ (k : ℚ) * delta :=
      mul_nonneg (by positivity) hdelta.le
    linarith
  · by_cases hf : 0 ≤ ((smax - smin) / delta).floor
    · have hkz : (k : ℤ) ≤ ((smax - smin) / delta).floor := by omega
      have hq : ((k : ℤ) : ℚ) ≤ (smax - smin) / delta := Rat.le_floor.mp hkz
      have hq' : (k : ℚ) ≤ (smax - smin) / delta := by exact_mod_cast hq
      have hmul : (k : ℚ) * delta ≤ smax - smin := (le_div_iff₀ hdelta).mp hq'
      linarith
    · have hk0 : k = 0 := by omega
      subst hk0
      simpa using hle

/-- Every candidate slope lies between the configured bounds. -/
theorem beach_slopes_bounds :
    ∀ x ∈ beach_slopes, slope_min ≤ x ∧ x ≤ slope_max := by
  apply range_slopes_mem_bounds
  · norm_num [delta_slope]
  · norm_num [slope_min, slope_max]

/-- **C6.** Every slope estimate the loop produces is one scalar lying
within the configured candidate range: between `slope_min = 0.035` and
`slope_max = 0.2` inclusive, the range the candidate slopes are generated
from with step `delta_slope = 0.005`. -/
theorem slope_est_in_candidate_range (power : List ℚ → ℚ)
    (dates_sat : List Cell) (tide_sat : List ℚ)
    (cd : List (String × List (Option ℚ))) :
    ∀ kv ∈ slopeStage power dates_sat tide_sat cd,
      slope_min ≤ (kv.2 : ℚ) ∧ (kv.2 : ℚ) ≤ slope_max := by
  intro kv hkv
  unfold slopeStage at hkv
  rcases List.mem_map.mp hkv with ⟨kv', hmem, rfl⟩
  apply beach_slopes_bounds
  apply integrate_power_spectrum_mem
  · exact range_slopes_ne_nil _ _ _
  · have hlen : (tide_correct (removeNans dates_sat tide_sat kv'.2).2.2
        (removeNans dates_sat tide_sat kv'.2).2.1 beach_slopes).length =
        beach_slopes.length := by
      unfold tide_correct
      exact List.length_map _ _
    intro hnil
    rw [hnil] at hlen
    exact range_slopes_ne_nil slope_min slope_max delta_slope
      (List.length_eq_zero.mp hlen.symm)

/-- The value the loop computes on an empty cross-distance series (used to
witness C6 and C5 at a concrete input). -/
def demoSlopeEst : ℚ :=
  integrate_power_spectrum (fun _ => 0) beach_slopes (tide_correct [] [] beach_slopes)

/-- Witness for C6: at the one-transect cross-distance dictionary with an
empty series, the estimate is a member of the loop output and lies in the
configured range. -/
theorem slope_est_in_candidate_range_witness :
    (("t1", demoSlopeEst) ∈ slopeStage (fun _ => 0) [] [] [("t1", [])]) ∧
    slope_min ≤ demoSlopeEst ∧ demoSlopeEst ≤ slope_max :=
  ⟨List.mem_singleton.mpr rfl,
    slope_est_in_candidate_range (fun _ => 0) [] [] [("t1", [])]
      ("t1", demoSlopeEst) (List.mem_singleton.mpr rfl)⟩

/-! ## Claim C5: exactly one printed slope line per transect -/

/-- **C5.** The loop prints exactly one slope line per transect of the
cross-distance mapping: the keys of the printed `(key, slope)` lines are
exactly the keys of the mapping, and (the keys of a Python dict being
distinct) every key of the mapping is printed exactly once while any other
key is printed zero times. -/
theorem one_printed_slope_per_transect (power : List ℚ → ℚ)
    (dates_sat : List Cell) (tide_sat : List ℚ)
    (cd : List (String × List (Option ℚ)))
    (hnd : (cd.map Prod.fst).Nodup) :
    (slopeStage power dates_sat tide_sat cd).map Prod.fst = cd.map Prod.fst ∧
    ∀ k : String,
      ((slopeStage power dates_sat tide_sat cd).map Prod.fst).count k =
        (if k ∈ cd.map Prod.fst then 1 else 0) := by
  have hmap : (slopeStage power dates_sat tide_sat cd).map Prod.fst =
      cd.map Prod.fst := by
    unfold slopeStage
    rw [List.map_map]
    rfl
  refine ⟨hmap, ?_⟩
  intro k
  rw [hmap]
  by_cases hk : k ∈ cd.map Prod.fst
  · rw [if_pos hk]
    exact List.count_eq_one_of_mem hnd hk
  · rw [if_neg hk]
    exact List.count_eq_zero_of_not_mem hk

/-- Witness for C5 at the concrete one-transect dictionary `cdA`. -/
theorem one_printed_slope_per_transect_witness :
    (cdA.map Prod.fst).Nodup ∧
    ((slopeStage (fun _ => 0) [] [] cdA).map Prod.fst = cdA.map Prod.fst ∧
      ∀ k : String,
        ((slopeStage (fun _ => 0) [] [] cdA).map Prod.fst).count k =
          (if k ∈ cdA.map Prod.fst then 1 else 0)) :=
  ⟨by decide, one_printed_slope_per_transect (fun _ => 0) [] [] cdA (by decide)⟩

/-! ## The whole script (claims C7, C8, C10) -/

/-- The transect geometries: identifier and the two 2D endpoints. -/
abbrev Transects := List (String × ((ℚ × ℚ) × (ℚ × ℚ)))

/-- The library functions the script calls whose algorithmic content is
owned by the external analysis library and out of spec (transect
intersection with outlier rejection, tide level at the acquisition dates,
and the spectral power functional); the script calls them as fixed
functions of their inputs. -/
structure Libs where
  compute_intersection : Output → Transects → List (String × List (Option ℚ))
  reject_outliers : List (String × List (Option ℚ)) → Output →
    List (String × List (Option ℚ))
  tide_at : List Cell → List ℚ
  power : List ℚ → ℚ

/-- `_.timestamp()` of a date cell (line 138). -/
def cellTimestamp : Cell → ℤ
  | Cell.date t => t
  | _ => 0

/-- `np.diff` (line 139): consecutive differences. -/
def npDiff (xs : List ℤ) : List ℤ :=
  (xs.zip xs.tail).map (fun p => p.2 - p.1)

/-- `np.min` (line 142); `none` embeds the `ValueError` numpy raises on an
empty array. -/
def npMin (xs : List ℤ) : Option ℤ := xs.min?

/-- The length of the difference series is one less than of the input. -/
theorem npDiff_length (xs : List ℤ) : (npDiff xs).length = xs.length - 1 := by
  unfold npDiff
  rw [List.length_map, List.length_zip, List.length_tail]
  omega

/-- The pipeline stages of the script, in source order. -/
inductive Stage where
  | load
  | filter
  | intersect
  | tide
  | slopes
deriving DecidableEq, Repr

/-- The straight-line script (lines 26–164), recording one trace label as
each stage is entered: load (lines 26–35), filter (38–46), intersection
with outlier rejection (75–77) followed by the date clipping (98–101), tide
computation (118–121), and the per-transect slope loop (153–164).  The
`np.min` of the timestep differences (line 142) fails on an empty array,
terminating the run before the slope stage; the first component is the
printed `(key, slope)` lines or that uncaught error. -/
def runTraced (L : Libs) (o : Output) (tr : Transects) (lo hi : ℤ) :
    Except String (List (String × ℚ)) × List Stage :=
  let t0 := [Stage.load]
  let o3 := filterStage o
  let t1 := t0 ++ [Stage.filter]
  let cd1 := L.reject_outliers (L.compute_intersection o3 tr) o3
  let t2 := t1 ++ [Stage.intersect]
  let dates_sat := clipDates lo hi (getKey o3 "dates")
  let cd := clipCross lo hi (getKey o3 "dates") cd1
  let tide_sat := L.tide_at dates_sat
  let t3 := t2 ++ [Stage.tide]
  match npMin (npDiff (dates_sat.map cellTimestamp)) with
  | none => (Except.error "ValueError", t3)
  | some _ =>
      (Except.ok (slopeStage L.power dates_sat tide_sat cd),
        t3 ++ [Stage.slopes])

/-- The observable result of a run: the printed lines, or the uncaught
error. -/
def runScript (L : Libs) (o : Output) (tr : Transects) (lo hi : ℤ) :
    Except String (List (String × ℚ)) :=
  (runTraced L o tr lo hi).1

/-- The stage-invocation trace of a run. -/
def scriptTrace (L : Libs) (o : Output) (tr : Transects) (lo hi : ℤ) :
    List Stage :=
  (runTraced L o tr lo hi).2

/-- Trivial concrete library functions, for witnesses. -/
def L0 : Libs where
  compute_intersection := fun _ _ => []
  reject_outliers := fun cd _ => cd
  tide_at := fun _ => []
  power := fun _ => 0

/-! ## Claim C7: determinism -/

/-- **C7.** The script is deterministic: two runs on the same shoreline
dataset, transects and configured date bounds (with the same library code)
produce identical results, in particular identical printed slope lines. -/
theorem script_deterministic (L : Libs) (o o' : Output) (tr tr' : Transects)
    (lo hi lo' hi' : ℤ) (ho : o = o') (htr : tr = tr') (hlo : lo = lo')
    (hhi : hi = hi') :
    runScript L o tr lo hi = runScript L o' tr' lo' hi' := by
  subst ho htr hlo hhi
  rfl

/-- Witness for C7: two runs at the concrete dataset `oA`. -/
theorem script_deterministic_witness :
    (oA = oA ∧ ([] : Transects) = [] ∧ (0 : ℤ) = 0 ∧ (10 : ℤ) = 10) ∧
    runScript L0 oA [] 0 10 = runScript L0 oA [] 0 10 :=
  ⟨⟨rfl, rfl, rfl, rfl⟩,
    script_deterministic L0 oA oA [] [] 0 10 0 10 rfl rfl rfl rfl⟩

/-! ## Claim C10: the timestep computation needs two retained epochs -/

/-- The difference series of a short list is empty. -/
theorem npDiff_eq_nil_of_short (xs : List ℤ) (h : xs.length < 2) :
    npDiff xs = [] := by
  match xs, h with
  | [], _ => rfl
  | [x], _ => rfl

/-- **C10.** If fewer than two dates survive filtering and date-range
clipping, the difference series of timestamps is empty and `np.min` of it
raises an uncaught `ValueError` that terminates the script before any slope
is estimated (the run result is the error, not printed slope lines). -/
theorem min_timestep_needs_two_dates (L : Libs) (o : Output) (tr : Transects)
    (lo hi : ℤ)
    (h : (clipDates lo hi (getKey (filterStage o) "dates")).length < 2) :
    npDiff ((clipDates lo hi (getKey (filterStage o) "dates")).map
        cellTimestamp) = [] ∧
      runScript L o tr lo hi = Except.error "ValueError" := by
  have hdiff : npDiff ((clipDates lo hi (getKey (filterStage o) "dates")).map
      cellTimestamp) = [] := by
    apply npDiff_eq_nil_of_short
    rw [List.length_map]
    exact h
  have hmin : npMin (npDiff ((clipDates lo hi
      (getKey (filterStage o) "dates")).map cellTimestamp)) = none := by
    rw [hdiff]
    rfl
  refine ⟨hdiff, ?_⟩
  unfold runScript runTraced
  simp only [hmin]

/-- Witness for C10: the empty dataset retains zero dates and the run ends
in the uncaught error. -/
theorem min_timestep_needs_two_dates_witness :
    ((clipDates 0 10 (getKey (filterStage []) "dates")).length < 2) ∧
    (npDiff ((clipDates 0 10 (getKey (filterStage []) "dates")).map
        cellTimestamp) = [] ∧
      runScript L0 [] [] 0 10 = Except.error "ValueError") :=
  ⟨by decide, min_timestep_needs_two_dates L0 [] [] 0 10 (by decide)⟩

/-! ## Claim C8: fixed linear stage order -/

/-- **C8 (counterexample).** The claim that every stage is invoked exactly
once on any run fails: on the run over the empty dataset the timestep
computation aborts the script, so the slope-estimation stage is invoked
zero times, not once. -/
theorem stage_once_counterexample :
    ¬ ((scriptTrace L0 [] [] 0 10).count Stage.slopes = 1) := by
  decide

/-- **C8 (amended).** The stages are invoked in the fixed linear order
load, filter, intersection, tide, slopes with no stage repeated, retried or
invoked out of order on any run: every trace is the full five-stage
sequence or its four-stage truncation at the timestep failure, each stage
occurs at most once, and whenever at least two dates survive clipping every
stage is invoked exactly once in that order. -/
theorem stages_linear_order (L : Libs) (o : Output) (tr : Transects)
    (lo hi : ℤ) :
    (scriptTrace L o tr lo hi =
        [Stage.load, Stage.filter, Stage.intersect, Stage.tide, Stage.slopes] ∨
      scriptTrace L o tr lo hi =
        [Stage.load, Stage.filter, Stage.intersect, Stage.tide]) ∧
    (∀ s : Stage, (scriptTrace L o tr lo hi).count s ≤ 1) ∧
    (2 ≤ (clipDates lo hi (getKey (filterStage o) "dates")).length →
      scriptTrace L o tr lo hi =
        [Stage.load, Stage.filter, Stage.intersect, Stage.tide, Stage.slopes]) := by
  cases hm : npMin (npDiff ((clipDates lo hi
      (getKey (filterStage o) "dates")).map cellTimestamp)) with
  | none =>
      have htr : scriptTrace L o tr lo hi =
          [Stage.load, Stage.filter, Stage.intersect, Stage.tide] := by
        unfold scriptTrace runTraced
        simp only [hm]
        rfl
      refine ⟨Or.inr htr, ?_, ?_⟩
      · intro s
        rw [htr]
        cases s <;> decide
      · intro h2
        exfalso
        have hnil : npDiff ((clipDates lo hi
            (getKey (filterStage o) "dates")).map cellTimestamp) = [] :=
          List.min?_eq_none_iff.mp hm
        have hlen := npDiff_length ((clipDates lo hi
            (getKey (filterStage o) "dates")).map cellTimestamp)
        rw [hnil, List.length_map] at hlen
        simp at hlen
        omega
  | some m =>
      have htr : scriptTrace L o tr lo hi =
          [Stage.load, Stage.filter, Stage.intersect, Stage.tide,
            Stage.slopes] := by
        unfold scriptTrace runTraced
        simp only [hm]
        rfl
      refine ⟨Or.inl htr, ?_, fun _ => htr⟩
      intro s
      rw [htr]
      cases s <;> decide

/-- A concrete dataset whose two epochs survive the whole filter and
clipping, for the C8 witness. -/
def oW : Output :=
  [("dates", [Cell.date 1, Cell.date 2]),
   ("satname", [Cell.str "L8", Cell.str "L8"]),
   ("geoaccuracy", [Cell.num 1, Cell.num 2])]

/-- Witness for C8 (amended): at the concrete dataset `oW` both epochs
survive, and all five stages are invoked once in order. -/
theorem stages_linear_order_witness :
    (2 ≤ (clipDates 0 10 (getKey (filterStage oW) "dates")).length) ∧
    scriptTrace L0 oW [] 0 10 =
      [Stage.load, Stage.filter, Stage.intersect, Stage.tide, Stage.slopes] :=
  ⟨by decide, (stages_linear_order L0 oW [] 0 10).2.2 (by decide)⟩

end CoastSatSlope
